import Mathlib

/-!
Shallow embedding of the `TaskManager` class of `src/aplication_maps.js`
(the store component of the browser task-list application).

Modelling conventions:
* A JS `Map<string, Task>` is an insertion-ordered association list
  `List (String × Task)`; `Map.set` on a fresh key appends, on a present key
  overwrites in place, `Map.delete` removes the (unique) entry with that key,
  and iteration (`values`, `entries`) follows the list order, exactly as the
  ES2015 `Map` iteration contract prescribes.
* `localStorage` is modelled as the single slot the class uses
  (`STORAGE_KEY = "taskManager_tasks"`): a field `storage : Option Json`
  holding the parsed form of the serialized entry array, `none` when the slot
  was never written.  `JSON.stringify` / `JSON.parse` are modelled as the
  identity at the `Json` level: `stringify` of the entries array followed by
  `parse` reproduces the same tree.
* `localStorage.setItem` can throw (quota); `saveToLocalStorage` catches and
  logs it.  The boolean parameter `saveOk` of each mutating operation says
  whether that durable write succeeds; on `false` the slot keeps its old
  content and nothing else happens, which is what the `catch` block does.
* `new Date()` in `addTask` is modelled by an extra argument `now : String`,
  the serialized form of the creation instant (after a JSON round trip the
  field is a plain string in the real program as well; no code ever reads it).
* A thrown `Error` is modelled by returning the unchanged store together with
  an `Except.error`; JS throws in `addTask` happen before any mutation.
-/

namespace TaskManager

/-- Whitespace recognized by JavaScript `String.prototype.trim` (the ASCII
subset, which is all the application can receive from its input fields). -/
def jsWhitespace (c : Char) : Bool :=
  c = ' ' || c = '\t' || c = '\n' || c = '\r' || c = '\x0b' || c = '\x0c'

/-- Model of JavaScript `String.prototype.trim`: drop leading and trailing
whitespace.  (Defined over `String.data` so that it evaluates by `decide`.) -/
def jsTrim (s : String) : String :=
  ⟨((s.data.dropWhile jsWhitespace).reverse.dropWhile jsWhitespace).reverse⟩

/-- The `Task` record built by `TaskManager.addTask` (interface `Task` of the
TypeScript source): `id` and `description` are stored trimmed, `datetime`
verbatim, `createdAt` is the creation stamp. -/
structure Task where
  id : String
  description : String
  datetime : String
  createdAt : String
deriving DecidableEq

/-- Insertion-ordered association list standing for `Map<string, Task>`. -/
abbrev TaskMap := List (String × Task)

/-- Model of `Map.prototype.has`. -/
def mapHas (m : TaskMap) (k : String) : Bool :=
  m.any (fun p => p.1 == k)

/-- Model of `Map.prototype.get` (`undefined` becomes `none`). -/
def mapGet (m : TaskMap) (k : String) : Option Task :=
  (m.find? (fun p => p.1 == k)).map Prod.snd

/-- Model of `Map.prototype.set`: overwrite in place when the key is present
(keeping its position), append otherwise. -/
def mapSet (m : TaskMap) (k : String) (v : Task) : TaskMap :=
  if mapHas m k then m.map (fun p => if p.1 == k then (k, v) else p)
  else m ++ [(k, v)]

/-- Model of `Map.prototype.delete` (the state part; the returned boolean is
`mapHas m k`). -/
def mapDelete (m : TaskMap) (k : String) : TaskMap :=
  m.eraseP (fun p => p.1 == k)

/-- Model of `Array.from(map.values())`. -/
def mapValues (m : TaskMap) : List Task :=
  m.map Prod.snd

/-- Model of `new Map(pairs)`: insert the pairs in order via `Map.set`. -/
def mapOfList (l : List (String × Task)) : TaskMap :=
  l.foldl (fun m p => mapSet m p.1 p.2) []

/-- JSON values, as far as this program's serialization needs them. -/
inductive Json where
  | str (s : String)
  | arr (elems : List Json)
  | obj (fields : List (String × Json))

/-- JSON encoding of a `Task` object.  (`JSON.stringify` turns the `Date`
in `createdAt` into its ISO string; here `createdAt` already is that
string, see the module comment.) -/
def encodeTask (t : Task) : Json :=
  Json.obj [("id", Json.str t.id), ("description", Json.str t.description),
            ("datetime", Json.str t.datetime), ("createdAt", Json.str t.createdAt)]

/-- JSON encoding of `Array.from(this.tasks.entries())`, the value
`saveToLocalStorage` writes into the slot. -/
def encodeEntries (m : TaskMap) : Json :=
  Json.arr (m.map (fun p => Json.arr [Json.str p.1, encodeTask p.2]))

/-- Decoding of one task object.  The JS code does not validate shapes after
`JSON.parse`; this decoder only fails on trees `JSON.stringify` of a task
never produces, so it is exact on everything the program itself writes. -/
def decodeTask (j : Json) : Option Task :=
  match j with
  | Json.obj [("id", Json.str i), ("description", Json.str d),
              ("datetime", Json.str dt), ("createdAt", Json.str c)] =>
    some { id := i, description := d, datetime := dt, createdAt := c }
  | _ => none

/-- Decoding of one `[key, task]` entry pair. -/
def decodeEntry (j : Json) : Option (String × Task) :=
  match j with
  | Json.arr [Json.str k, tj] => (decodeTask tj).map (fun t => (k, t))
  | _ => none

/-- Decoding of the serialized entries array back into a pair list, as
`JSON.parse` yields it to `new Map(tasksArray)`. -/
def decodeEntries (j : Json) : Option (List (String × Task)) :=
  match j with
  | Json.arr xs => xs.mapM decodeEntry
  | _ => none

/-- State of a `TaskManager` instance together with its `localStorage` slot. -/
structure Store where
  tasks : TaskMap
  storage : Option Json

/-- The two user-visible errors `addTask` can throw: `DuplicateKey`
(message names the conflicting id) and `InvalidInput`. -/
inductive AddError where
  | duplicateKey (id : String)
  | invalidInput
deriving DecidableEq

/-- Method `saveToLocalStorage`: serialize the full entries array into the
slot; a failing `localStorage.setItem` (`saveOk = false`) is caught and
logged, leaving the slot as it was. -/
def saveToLocalStorage (st : Store) (saveOk : Bool) : Store :=
  if saveOk then { st with storage := some (encodeEntries st.tasks) } else st

/-- Method `loadFromLocalStorage`: an absent slot leaves the collection as it
is; a present slot is parsed and rebuilt via `new Map(tasksArray)`; a parse
failure is caught and resets the collection to empty. -/
def loadFromLocalStorage (st : Store) : Store :=
  match st.storage with
  | none => st
  | some j =>
    match decodeEntries j with
    | some tasksArray => { st with tasks := mapOfList tasksArray }
    | none => { st with tasks := [] }

/-- The `TaskManager` constructor: start with an empty map, then
`loadFromLocalStorage` from the given slot content. -/
def mkTaskManager (stored : Option Json) : Store :=
  loadFromLocalStorage { tasks := [], storage := stored }

/-- A manager constructed in a session whose slot was never written. -/
def freshStore : Store :=
  mkTaskManager none

/-- Method `addTask(id, description, datetime)`.  Checks `tasks.has(id)` on
the raw (untrimmed) argument, then rejects fields that are empty after
trimming, then stores the task (trimmed `id` and `description`, verbatim
`datetime`) under the raw `id` as key and persists.  Returns the new state
and `Except.ok true`, or the unchanged state and the thrown error. -/
def addTask (st : Store) (id description datetime now : String) (saveOk : Bool) :
    Store × Except AddError Bool :=
  if mapHas st.tasks id then
    (st, Except.error (AddError.duplicateKey id))
  else if jsTrim id = "" ∨ jsTrim description = "" ∨ jsTrim datetime = "" then
    (st, Except.error AddError.invalidInput)
  else
    let newTask : Task :=
      { id := jsTrim id, description := jsTrim description,
        datetime := datetime, createdAt := now }
    let st' : Store := { st with tasks := mapSet st.tasks id newTask }
    (saveToLocalStorage st' saveOk, Except.ok true)

/-- Method `getTask(id)`: direct `Map.get`, no trimming of the query key. -/
def getTask (st : Store) (id : String) : Option Task :=
  mapGet st.tasks id

/-- Parse of the `datetime` strings the app's `datetime-local` input produces
(`YYYY-MM-DDTHH:MM`), the format `new Date(s).getTime()` receives here.  The
result is a decimal packing of (year, month, day, hour, minute), which is
strictly monotone in the chronological order, hence order-isomorphic to the
epoch-milliseconds value `getTime()` returns on this format.  `none` stands
for an unparseable string (`getTime()` = `NaN`). -/
def parseDatetime (s : String) : Option Nat :=
  match s.data with
  | [y1, y2, y3, y4, s1, mo1, mo2, s2, d1, d2, s3, h1, h2, s4, mi1, mi2] =>
    if s1 = '-' && s2 = '-' && s3 = 'T' && s4 = ':' &&
        y1.isDigit && y2.isDigit && y3.isDigit && y4.isDigit &&
        mo1.isDigit && mo2.isDigit && d1.isDigit && d2.isDigit &&
        h1.isDigit && h2.isDigit && mi1.isDigit && mi2.isDigit then
      let dv := fun (c : Char) => c.toNat - 48
      let y := ((dv y1 * 10 + dv y2) * 10 + dv y3) * 10 + dv y4
      let mo := dv mo1 * 10 + dv mo2
      let da := dv d1 * 10 + dv d2
      let h := dv h1 * 10 + dv h2
      let mi := dv mi1 * 10 + dv mi2
      if 1 ≤ mo && mo ≤ 12 && 1 ≤ da && da ≤ 31 && h ≤ 23 && mi ≤ 59 then
        some ((((y * 100 + mo) * 100 + da) * 100 + h) * 100 + mi)
      else none
    else none
  | _ => none

/-- Sort key of a task's `datetime`.  On parseable strings this is the parsed
date value; the `getD 0` default models one consistent choice for the
`NaN` comparator case, whose order the source leaves unspecified (the
claims about `getAllTasks` only concern parseable datetimes). -/
def dateKey (s : String) : Nat :=
  (parseDatetime s).getD 0

/-- The ascending-comparator order `(a, b) => new Date(a.datetime).getTime()
- new Date(b.datetime).getTime()` induces on tasks. -/
def taskLe (a b : Task) : Prop :=
  dateKey a.datetime ≤ dateKey b.datetime

instance : DecidableRel taskLe :=
  fun a b => inferInstanceAs (Decidable (dateKey a.datetime ≤ dateKey b.datetime))

instance : IsTotal Task taskLe :=
  ⟨fun a b => Nat.le_total (dateKey a.datetime) (dateKey b.datetime)⟩

instance : IsTrans Task taskLe :=
  ⟨fun _ _ _ hab hbc => Nat.le_trans hab hbc⟩

/-- Method `getAllTasks()`: the values in insertion order, sorted ascending by
parsed `datetime`.  `Array.prototype.sort` is a stable sort and so is
`List.insertionSort`, so on a total comparator both produce the same list. -/
def getAllTasks (st : Store) : List Task :=
  List.insertionSort taskLe (mapValues st.tasks)

/-- Method `removeTask(id)`: `Map.delete`, then persist only when a deletion
actually happened; returns the deletion flag. -/
def removeTask (st : Store) (id : String) (saveOk : Bool) : Store × Bool :=
  let deleted := mapHas st.tasks id
  let st' : Store := { st with tasks := mapDelete st.tasks id }
  (if deleted then saveToLocalStorage st' saveOk else st', deleted)

/-- Method `hasTask(id)`. -/
def hasTask (st : Store) (id : String) : Bool :=
  mapHas st.tasks id

/-- Method `getTaskCount()` (`Map.size`). -/
def getTaskCount (st : Store) : Nat :=
  st.tasks.length

/-- Method `clearAllTasks()`: clear the map, then persist unconditionally. -/
def clearAllTasks (st : Store) (saveOk : Bool) : Store :=
  saveToLocalStorage { st with tasks := [] } saveOk

/-- One mutating call on a `TaskManager` (the two operations that can change
the task collection after construction). -/
inductive Op where
  | add (id description datetime now : String) (saveOk : Bool)
  | remove (id : String) (saveOk : Bool)

/-- Effect of one operation on the store state (a thrown `addTask` error
leaves the state unchanged). -/
def applyOp (st : Store) : Op → Store
  | Op.add i d t n ok => (addTask st i d t n ok).1
  | Op.remove i ok => (removeTask st i ok).1

/-- State after a sequence of `addTask` / `removeTask` calls on a manager
that started from an unwritten slot. -/
def runOps (ops : List Op) : Store :=
  ops.foldl applyOp freshStore

/-- Key uniqueness of the association list, i.e. what `Map<string, Task>`
guarantees structurally in JS. -/
def keysNodup (m : TaskMap) : Prop :=
  (m.map Prod.fst).Nodup

instance (m : TaskMap) : Decidable (keysNodup m) :=
  inferInstanceAs (Decidable ((m.map Prod.fst).Nodup))

deriving instance DecidableEq for Except

/-- Store of the spec's sorting example: three tasks inserted with datetimes
`2025-01-02T10:00`, `2025-01-01T09:00`, `2025-01-03T08:00`, in that order. -/
def sortExampleStore : Store :=
  (addTask ((addTask ((addTask freshStore
    "t1" "second" "2025-01-02T10:00" "n1" true).1)
    "t2" "first" "2025-01-01T09:00" "n2" true).1)
    "t3" "third" "2025-01-03T08:00" "n3" true).1

/-! Helper lemmas about the `Map` model. -/

theorem tasks_saveToLocalStorage (st : Store) (saveOk : Bool) :
    (saveToLocalStorage st saveOk).tasks = st.tasks := by
  unfold saveToLocalStorage
  split <;> rfl

theorem mapHas_eq_true_iff (m : TaskMap) (k : String) :
    mapHas m k = true ↔ ∃ p ∈ m, p.1 = k := by
  simp [mapHas, List.any_eq_true]

theorem mapHas_eq_false_iff (m : TaskMap) (k : String) :
    mapHas m k = false ↔ ∀ p ∈ m, p.1 ≠ k := by
  rw [← Bool.not_eq_true, mapHas_eq_true_iff]
  push_neg
  rfl

theorem mapHas_eq_false_iff_not_mem_keys (m : TaskMap) (k : String) :
    mapHas m k = false ↔ k ∉ m.map Prod.fst := by
  rw [mapHas_eq_false_iff]
  simp only [List.mem_map, not_exists]
  constructor
  · rintro h p ⟨hp, hk⟩
    exact h p hp hk
  · intro h p hp hk
    exact h p ⟨hp, hk⟩

theorem mapGet_eq_none_iff (m : TaskMap) (k : String) :
    mapGet m k = none ↔ mapHas m k = false := by
  rw [mapHas_eq_false_iff]
  simp [mapGet, List.find?_eq_none]

theorem mapSet_of_not_has (m : TaskMap) (k : String) (v : Task)
    (h : mapHas m k = false) :
    mapSet m k v = m ++ [(k, v)] := by
  simp [mapSet, h]

theorem keysNodup_mapSet_of_not_has (m : TaskMap) (k : String) (v : Task)
    (h : mapHas m k = false) (hnd : keysNodup m) :
    keysNodup (mapSet m k v) := by
  rw [mapSet_of_not_has m k v h]
  unfold keysNodup at hnd ⊢
  rw [List.map_append, List.nodup_append]
  refine ⟨hnd, List.nodup_singleton k, ?_⟩
  intro a ha hk
  have hak : a = k := by simpa using hk
  subst hak
  exact (mapHas_eq_false_iff_not_mem_keys m a).mp h ha

theorem keysNodup_mapDelete (m : TaskMap) (k : String) (hnd : keysNodup m) :
    keysNodup (mapDelete m k) := by
  unfold keysNodup at hnd ⊢
  exact hnd.sublist (List.Sublist.map Prod.fst (List.eraseP_sublist m))

theorem mapDelete_of_not_has (m : TaskMap) (k : String)
    (h : mapHas m k = false) :
    mapDelete m k = m := by
  refine List.eraseP_of_forall_not ?_
  intro p hp
  have := (mapHas_eq_false_iff m k).mp h p hp
  simpa using this

theorem mapHas_mapDelete_self (m : TaskMap) (k : String) (hnd : keysNodup m) :
    mapHas (mapDelete m k) k = false := by
  induction m with
  | nil => rfl
  | cons p rest ih =>
    unfold keysNodup at hnd
    rw [List.map_cons, List.nodup_cons] at hnd
    by_cases hp : p.1 = k
    · have e1 : List.eraseP (fun x : String × Task => x.1 == k) (p :: rest) = rest :=
        List.eraseP_cons_of_pos (by simpa using hp)
      rw [mapDelete, e1]
      subst hp
      rw [mapHas_eq_false_iff]
      intro q hq hqk
      exact hnd.1 (hqk ▸ List.mem_map_of_mem Prod.fst hq)
    · have e1 : List.eraseP (fun x : String × Task => x.1 == k) (p :: rest)
          = p :: List.eraseP (fun x : String × Task => x.1 == k) rest :=
        List.eraseP_cons_of_neg (by simp [hp])
      rw [mapDelete, e1, mapHas, List.any_cons]
      have hbf : (p.1 == k) = false := by simp [hp]
      simp only [hbf, Bool.false_or]
      exact ih hnd.2

theorem mapGet_mapDelete_ne (m : TaskMap) (k q : String) (h : q ≠ k) :
    mapGet (mapDelete m k) q = mapGet m q := by
  induction m with
  | nil => rfl
  | cons p rest ih =>
    by_cases hp : p.1 = k
    · have e1 : List.eraseP (fun x : String × Task => x.1 == k) (p :: rest) = rest :=
        List.eraseP_cons_of_pos (by simpa using hp)
      have e2 : List.find? (fun x : String × Task => x.1 == q) (p :: rest)
          = List.find? (fun x : String × Task => x.1 == q) rest :=
        List.find?_cons_of_neg rest (by simp [hp, Ne.symm h])
      simp only [mapDelete, mapGet]
      rw [e1, e2]
    · have e1 : List.eraseP (fun x : String × Task => x.1 == k) (p :: rest)
          = p :: List.eraseP (fun x : String × Task => x.1 == k) rest :=
        List.eraseP_cons_of_neg (by simp [hp])
      simp only [mapDelete, mapGet] at ih ⊢
      rw [e1]
      by_cases hq : p.1 = q
      · have e2 : List.find? (fun x : String × Task => x.1 == q) (p :: rest) = some p :=
          List.find?_cons_of_pos rest (by simpa using hq)
        have e3 : List.find? (fun x : String × Task => x.1 == q)
            (p :: List.eraseP (fun x : String × Task => x.1 == k) rest) = some p :=
          List.find?_cons_of_pos _ (by simpa using hq)
        rw [e2, e3]
      · have e2 : List.find? (fun x : String × Task => x.1 == q) (p :: rest)
            = List.find? (fun x : String × Task => x.1 == q) rest :=
          List.find?_cons_of_neg rest (by simp [hq])
        have e3 : List.find? (fun x : String × Task => x.1 == q)
            (p :: List.eraseP (fun x : String × Task => x.1 == k) rest)
            = List.find? (fun x : String × Task => x.1 == q)
                (List.eraseP (fun x : String × Task => x.1 == k) rest) :=
          List.find?_cons_of_neg _ (by simp [hq])
        rw [e2, e3]
        exact ih

theorem length_mapDelete_of_has (m : TaskMap) (k : String)
    (h : mapHas m k = true) :
    (mapDelete m k).length = m.length - 1 := by
  obtain ⟨p, hp, hk⟩ := (mapHas_eq_true_iff m k).mp h
  exact List.length_eraseP_of_mem hp (by simpa using hk)

theorem mapGet_single_self (k : String) (v : Task) :
    mapGet [(k, v)] k = some v := by
  have e : List.find? (fun x : String × Task => x.1 == k) [(k, v)] = some (k, v) :=
    List.find?_cons_of_pos _ (by simp)
  rw [mapGet, e]
  rfl

theorem mapGet_single_ne (k q : String) (v : Task) (h : q ≠ k) :
    mapGet [(k, v)] q = none := by
  have e : List.find? (fun x : String × Task => x.1 == q) [(k, v)]
      = List.find? (fun x : String × Task => x.1 == q) [] :=
    List.find?_cons_of_neg _ (by simp [Ne.symm h])
  rw [mapGet, e]
  rfl

theorem mapGet_append_single (m : TaskMap) (k : String) (v : Task)
    (h : mapHas m k = false) :
    mapGet (m ++ [(k, v)]) k = some v := by
  have hnone : m.find? (fun p => p.1 == k) = none := by
    rw [List.find?_eq_none]
    intro p hp
    simpa using (mapHas_eq_false_iff m k).mp h p hp
  rw [mapGet, List.find?_append, hnone]
  simp

/-! Helper lemmas about serialization and rebuilding via `new Map`. -/

theorem decodeTask_encodeTask (t : Task) :
    decodeTask (encodeTask t) = some t :=
  rfl

theorem decodeEntry_encode (p : String × Task) :
    decodeEntry (Json.arr [Json.str p.1, encodeTask p.2]) = some p := by
  rw [decodeEntry, decodeTask_encodeTask]
  rfl

theorem decodeEntries_encodeEntries (m : TaskMap) :
    decodeEntries (encodeEntries m) = some m := by
  rw [encodeEntries, decodeEntries]
  induction m with
  | nil => rfl
  | cons p rest ih =>
    rw [List.map_cons, List.mapM_cons, decodeEntry_encode, ih]
    rfl

theorem foldl_mapSet_of_nodup (l acc : List (String × Task))
    (h : ((acc ++ l).map Prod.fst).Nodup) :
    l.foldl (fun m p => mapSet m p.1 p.2) acc = acc ++ l := by
  induction l generalizing acc with
  | nil => simp
  | cons x xs ih =>
    have hx : mapHas acc x.1 = false := by
      rw [mapHas_eq_false_iff_not_mem_keys]
      intro hmem
      rw [List.map_append, List.nodup_append] at h
      exact h.2.2 hmem (by simp)
    have hstep : mapSet acc x.1 x.2 = acc ++ [x] := by
      rw [mapSet_of_not_has acc x.1 x.2 hx]
    rw [List.foldl_cons, hstep, ih (acc ++ [x]) (by simpa [List.append_assoc] using h)]
    simp

theorem mapOfList_eq_self (l : List (String × Task)) (h : keysNodup l) :
    mapOfList l = l := by
  have := foldl_mapSet_of_nodup l [] (by simpa [keysNodup] using h)
  simpa [mapOfList] using this

/-! Helper lemmas: key uniqueness is preserved by every operation. -/

theorem keysNodup_addTask (st : Store) (i d t n : String) (ok : Bool)
    (h : keysNodup st.tasks) :
    keysNodup (addTask st i d t n ok).1.tasks := by
  by_cases h1 : mapHas st.tasks i = true
  · simpa [addTask, h1] using h
  · have h1f : mapHas st.tasks i = false := by simpa using h1
    by_cases h2 : jsTrim i = "" ∨ jsTrim d = "" ∨ jsTrim t = ""
    · simpa [addTask, h1f, h2] using h
    · simp only [addTask, h1f, Bool.false_eq_true, if_false, if_neg h2,
        tasks_saveToLocalStorage]
      exact keysNodup_mapSet_of_not_has _ _ _ h1f h

theorem keysNodup_removeTask (st : Store) (i : String) (ok : Bool)
    (h : keysNodup st.tasks) :
    keysNodup (removeTask st i ok).1.tasks := by
  cases hd : mapHas st.tasks i with
  | true =>
    simp only [removeTask, hd, if_true, tasks_saveToLocalStorage]
    exact keysNodup_mapDelete _ _ h
  | false =>
    simp only [removeTask, hd, Bool.false_eq_true, if_false]
    exact keysNodup_mapDelete _ _ h

theorem keysNodup_applyOp (st : Store) (op : Op) (h : keysNodup st.tasks) :
    keysNodup (applyOp st op).tasks := by
  cases op with
  | add i d t n ok => exact keysNodup_addTask st i d t n ok h
  | remove i ok => exact keysNodup_removeTask st i ok h

theorem keysNodup_foldl_applyOp (ops : List Op) (st : Store) (h : keysNodup st.tasks) :
    keysNodup (ops.foldl applyOp st).tasks := by
  induction ops generalizing st with
  | nil => exact h
  | cons op rest ih => exact ih _ (keysNodup_applyOp st op h)

/-! The claims. -/

/-- C1, counterexample to the claim as stated: after the two successful
`addTask` calls with raw ids `"a"` and `"a "`, the store holds two distinct
tasks whose stored (trimmed) `id` fields are both `"a"`. -/
theorem c1_trimmed_id_collision :
    (addTask freshStore "a" "d1" "2025-01-01T00:00" "n1" true).2 = Except.ok true ∧
    (addTask (addTask freshStore "a" "d1" "2025-01-01T00:00" "n1" true).1
        "a " "d2" "2025-01-01T00:00" "n2" true).2 = Except.ok true ∧
    (∃ t1 ∈ mapValues (addTask (addTask freshStore "a" "d1" "2025-01-01T00:00" "n1" true).1
          "a " "d2" "2025-01-01T00:00" "n2" true).1.tasks,
      ∃ t2 ∈ mapValues (addTask (addTask freshStore "a" "d1" "2025-01-01T00:00" "n1" true).1
          "a " "d2" "2025-01-01T00:00" "n2" true).1.tasks,
        t1 ≠ t2 ∧ t1.id = t2.id) := by
  decide

/-- C1 (amended): after any sequence of `addTask` / `removeTask` operations the
uniqueness invariant holds for the map keys — the raw, untrimmed ids under
which the tasks are stored — i.e. distinct entries of the store never share a
key (while their stored trimmed `id` fields may coincide). -/
theorem c1_store_keys_unique (ops : List Op) :
    ((runOps ops).tasks).Pairwise (fun p q => p.1 ≠ q.1) := by
  have h : keysNodup (runOps ops).tasks :=
    keysNodup_foldl_applyOp ops freshStore (List.nodup_nil)
  exact List.pairwise_map.mp h

/-- C2, counterexample to the claim as stated: the store contains a task whose
stored id equals `jsTrim " a"`, yet `addTask " a" ...` does not fail with
`DuplicateKey` — it succeeds and inserts a second entry. -/
theorem c2_trim_duplicate_not_detected :
    (∃ t ∈ mapValues (addTask freshStore "a" "d" "2025-01-01T00:00" "n" true).1.tasks,
        t.id = jsTrim " a") ∧
    (addTask (addTask freshStore "a" "d" "2025-01-01T00:00" "n" true).1
        " a" "x" "2025-01-02T00:00" "n2" true).2 = Except.ok true ∧
    getTaskCount (addTask (addTask freshStore "a" "d" "2025-01-01T00:00" "n" true).1
        " a" "x" "2025-01-02T00:00" "n2" true).1 = 2 := by
  decide

/-- C2 (amended): duplicate detection compares the raw id against the map
keys: whenever the store already holds an entry under exactly the key `id`
(untrimmed), `addTask id ...` fails with `DuplicateKey` and returns the store
unchanged — nothing is inserted and the existing task is unmodified. -/
theorem c2_addTask_duplicate_raw_key (st : Store) (id description datetime now : String)
    (saveOk : Bool) (h : mapHas st.tasks id = true) :
    addTask st id description datetime now saveOk
      = (st, Except.error (AddError.duplicateKey id)) := by
  simp [addTask, h]

/-- Witness for C2's amended theorem at a concrete duplicate id. -/
theorem c2_addTask_duplicate_raw_key_witness :
    addTask (addTask freshStore "a" "d" "2025-01-01T00:00" "n" true).1
        "a" "x" "2025-01-02T00:00" "n2" true
      = ((addTask freshStore "a" "d" "2025-01-01T00:00" "n" true).1,
          Except.error (AddError.duplicateKey "a")) :=
  c2_addTask_duplicate_raw_key _ "a" "x" "2025-01-02T00:00" "n2" true (by decide)

/-- C3: when no task is stored under the raw `id` key and at least one field
is empty after trimming, `addTask` fails with `InvalidInput`, the store is
unchanged and so is `getTaskCount`. -/
theorem c3_addTask_invalid_input (st : Store) (id description datetime now : String)
    (saveOk : Bool) (hid : mapHas st.tasks id = false)
    (hempty : jsTrim id = "" ∨ jsTrim description = "" ∨ jsTrim datetime = "") :
    addTask st id description datetime now saveOk
      = (st, Except.error AddError.invalidInput) ∧
    getTaskCount (addTask st id description datetime now saveOk).1 = getTaskCount st := by
  have h1 : addTask st id description datetime now saveOk
      = (st, Except.error AddError.invalidInput) := by
    simp only [addTask, hid, Bool.false_eq_true, if_false, if_pos hempty]
  exact ⟨h1, by rw [h1]⟩

/-- Witness for C3 at a whitespace-only id. -/
theorem c3_addTask_invalid_input_witness :
    addTask freshStore "   " "desc" "2025-01-01T00:00" "n" true
      = (freshStore, Except.error AddError.invalidInput) ∧
    getTaskCount (addTask freshStore "   " "desc" "2025-01-01T00:00" "n" true).1
      = getTaskCount freshStore :=
  c3_addTask_invalid_input freshStore "   " "desc" "2025-01-01T00:00" "n" true
    (by decide) (Or.inl (by decide))

/-- C4: `getAllTasks` returns a permutation of the stored tasks that is
pairwise nondecreasing in the parsed `datetime`; on the spec's three-task
example (inserted as 2025-01-02, 2025-01-01, 2025-01-03) the returned order
is 2025-01-01, 2025-01-02, 2025-01-03. -/
theorem c4_getAllTasks_sorted :
    (∀ st : Store,
      (getAllTasks st).Perm (mapValues st.tasks) ∧
      (getAllTasks st).Pairwise (fun a b => ∀ x y,
        parseDatetime a.datetime = some x → parseDatetime b.datetime = some y → x ≤ y)) ∧
    (getAllTasks sortExampleStore).map Task.datetime
      = ["2025-01-01T09:00", "2025-01-02T10:00", "2025-01-03T08:00"] := by
  constructor
  · intro st
    refine ⟨List.perm_insertionSort taskLe (mapValues st.tasks), ?_⟩
    have hs : (getAllTasks st).Pairwise taskLe :=
      List.sorted_insertionSort taskLe (mapValues st.tasks)
    refine hs.imp ?_
    intro a b hab x y hx hy
    unfold taskLe dateKey at hab
    rw [hx, hy] at hab
    exact hab
  · decide

/-- C5: persisting the collection and rebuilding a fresh manager from the
persisted slot reproduces the same `(key, id, description, datetime)` tuples
in the same order. -/
theorem c5_save_load_round_trip (st : Store) (h : keysNodup st.tasks) :
    (mkTaskManager (saveToLocalStorage st true).storage).tasks.map
        (fun p => (p.1, p.2.id, p.2.description, p.2.datetime))
      = st.tasks.map (fun p => (p.1, p.2.id, p.2.description, p.2.datetime)) := by
  have hload : (mkTaskManager (saveToLocalStorage st true).storage).tasks = st.tasks := by
    show (mkTaskManager (some (encodeEntries st.tasks))).tasks = st.tasks
    unfold mkTaskManager loadFromLocalStorage
    simp only [decodeEntries_encodeEntries]
    exact mapOfList_eq_self st.tasks h
  rw [hload]

/-- Witness for C5 on a two-task store (one key even carries trailing
whitespace). -/
theorem c5_save_load_round_trip_witness :
    (mkTaskManager (saveToLocalStorage
        (addTask (addTask freshStore "a" "d1" "2025-01-01T00:00" "n1" true).1
          "b " "d2" "2025-01-02T00:00" "n2" true).1 true).storage).tasks.map
        (fun p => (p.1, p.2.id, p.2.description, p.2.datetime))
      = (addTask (addTask freshStore "a" "d1" "2025-01-01T00:00" "n1" true).1
          "b " "d2" "2025-01-02T00:00" "n2" true).1.tasks.map
        (fun p => (p.1, p.2.id, p.2.description, p.2.datetime)) :=
  c5_save_load_round_trip _ (by decide)

/-- C6: removing an id absent from the map returns `false` and changes
nothing: not the collection, not the count, not the durable slot. -/
theorem c6_removeTask_absent (st : Store) (id : String) (saveOk : Bool)
    (h : mapHas st.tasks id = false) :
    removeTask st id saveOk = (st, false) ∧
    getTaskCount (removeTask st id saveOk).1 = getTaskCount st ∧
    (removeTask st id saveOk).1.storage = st.storage := by
  have h1 : removeTask st id saveOk = (st, false) := by
    simp [removeTask, h, mapDelete_of_not_has st.tasks id h]
  exact ⟨h1, by rw [h1], by rw [h1]⟩

/-- Witness for C6: removing a missing id from a one-task store. -/
theorem c6_removeTask_absent_witness :
    removeTask (addTask freshStore "a" "d" "2025-01-01T00:00" "n" true).1 "zzz" true
      = ((addTask freshStore "a" "d" "2025-01-01T00:00" "n" true).1, false) ∧
    getTaskCount (removeTask (addTask freshStore "a" "d" "2025-01-01T00:00" "n" true).1
        "zzz" true).1
      = getTaskCount (addTask freshStore "a" "d" "2025-01-01T00:00" "n" true).1 ∧
    (removeTask (addTask freshStore "a" "d" "2025-01-01T00:00" "n" true).1 "zzz" true).1.storage
      = (addTask freshStore "a" "d" "2025-01-01T00:00" "n" true).1.storage :=
  c6_removeTask_absent _ "zzz" true (by decide)

/-- C7: removing a present id returns `true`, decreases the count by exactly
one, makes `hasTask` false and `getTask` not-found for that id, and leaves
every other stored task unchanged. -/
theorem c7_removeTask_present (st : Store) (id : String) (saveOk : Bool)
    (hhas : mapHas st.tasks id = true) (hnd : keysNodup st.tasks) :
    (removeTask st id saveOk).2 = true ∧
    getTaskCount (removeTask st id saveOk).1 = getTaskCount st - 1 ∧
    hasTask (removeTask st id saveOk).1 id = false ∧
    getTask (removeTask st id saveOk).1 id = none ∧
    (∀ k : String, k ≠ id → getTask (removeTask st id saveOk).1 k = getTask st k) := by
  have htasks : (removeTask st id saveOk).1.tasks = mapDelete st.tasks id := by
    simp [removeTask, hhas, tasks_saveToLocalStorage]
  refine ⟨by simp [removeTask, hhas], ?_, ?_, ?_, ?_⟩
  · rw [getTaskCount, htasks, length_mapDelete_of_has st.tasks id hhas, getTaskCount]
  · rw [hasTask, htasks]
    exact mapHas_mapDelete_self st.tasks id hnd
  · rw [getTask, htasks]
    exact (mapGet_eq_none_iff _ _).mpr (mapHas_mapDelete_self st.tasks id hnd)
  · intro k hk
    rw [getTask, htasks, getTask]
    exact mapGet_mapDelete_ne st.tasks id k hk

/-- Witness for C7: removing the present id `"a"` from a two-task store. -/
theorem c7_removeTask_present_witness :
    (removeTask (addTask (addTask freshStore "a" "d1" "2025-01-01T00:00" "n1" true).1
        "b" "d2" "2025-01-02T00:00" "n2" true).1 "a" true).2 = true ∧
    getTaskCount (removeTask (addTask (addTask freshStore "a" "d1" "2025-01-01T00:00" "n1" true).1
        "b" "d2" "2025-01-02T00:00" "n2" true).1 "a" true).1
      = getTaskCount (addTask (addTask freshStore "a" "d1" "2025-01-01T00:00" "n1" true).1
          "b" "d2" "2025-01-02T00:00" "n2" true).1 - 1 ∧
    hasTask (removeTask (addTask (addTask freshStore "a" "d1" "2025-01-01T00:00" "n1" true).1
        "b" "d2" "2025-01-02T00:00" "n2" true).1 "a" true).1 "a" = false ∧
    getTask (removeTask (addTask (addTask freshStore "a" "d1" "2025-01-01T00:00" "n1" true).1
        "b" "d2" "2025-01-02T00:00" "n2" true).1 "a" true).1 "a" = none ∧
    (∀ k : String, k ≠ "a" →
      getTask (removeTask (addTask (addTask freshStore "a" "d1" "2025-01-01T00:00" "n1" true).1
          "b" "d2" "2025-01-02T00:00" "n2" true).1 "a" true).1 k
        = getTask (addTask (addTask freshStore "a" "d1" "2025-01-01T00:00" "n1" true).1
            "b" "d2" "2025-01-02T00:00" "n2" true).1 k) :=
  c7_removeTask_present _ "a" true (by decide) (by decide)

/-- C8: with valid input, a failing persist (`saveOk = false`, the caught
`localStorage.setItem` failure) does not unwind the insertion: `addTask`
still reports success, the new task is in the collection, and the durable
slot is simply left as it was. -/
theorem c8_addTask_persist_failure (st : Store) (id description datetime now : String)
    (h1 : mapHas st.tasks id = false)
    (h2 : ¬(jsTrim id = "" ∨ jsTrim description = "" ∨ jsTrim datetime = "")) :
    (addTask st id description datetime now false).2 = Except.ok true ∧
    mapGet (addTask st id description datetime now false).1.tasks id
      = some { id := jsTrim id, description := jsTrim description,
               datetime := datetime, createdAt := now } ∧
    (addTask st id description datetime now false).1.storage = st.storage := by
  have hmain : addTask st id description datetime now false
      = ({ st with tasks := st.tasks ++
            [(id, { id := jsTrim id, description := jsTrim description,
                    datetime := datetime, createdAt := now })] }, Except.ok true) := by
    simp only [addTask, h1, Bool.false_eq_true, if_false, if_neg h2]
    rw [mapSet_of_not_has _ _ _ h1]
    rfl
  refine ⟨by rw [hmain], ?_, by rw [hmain]⟩
  rw [hmain]
  exact mapGet_append_single st.tasks id _ h1

/-- Witness for C8 at a concrete valid input with the persist step failing. -/
theorem c8_addTask_persist_failure_witness :
    (addTask freshStore "a" "d" "2025-01-01T00:00" "n" false).2 = Except.ok true ∧
    mapGet (addTask freshStore "a" "d" "2025-01-01T00:00" "n" false).1.tasks "a"
      = some { id := jsTrim "a", description := jsTrim "d",
               datetime := "2025-01-01T00:00", createdAt := "n" } ∧
    (addTask freshStore "a" "d" "2025-01-01T00:00" "n" false).1.storage
      = freshStore.storage :=
  c8_addTask_persist_failure freshStore "a" "d" "2025-01-01T00:00" "n"
    (by decide) (by decide)

/-- C9: `clearAllTasks` leaves a store with zero count and an empty
`getAllTasks` list, and (when the durable write goes through) re-persists the
now empty entries array unconditionally, for every starting store — including
an already empty one. -/
theorem c9_clearAllTasks (st : Store) (saveOk : Bool) :
    getTaskCount (clearAllTasks st saveOk) = 0 ∧
    getAllTasks (clearAllTasks st saveOk) = [] ∧
    (clearAllTasks st true).storage = some (encodeEntries []) := by
  exact ⟨by cases saveOk <;> rfl, by cases saveOk <;> rfl, rfl⟩

/-- C10: `addTask` keys the map by the raw id but stores the trimmed id in
the task: after a successful `addTask` with a raw id that differs from its
trim, looking up the trimmed id finds nothing while looking up the raw id
finds the task whose `id` field is the trimmed string. -/
theorem c10_key_is_untrimmed_id (id description datetime now : String) (saveOk : Bool)
    (hne : id ≠ jsTrim id) (hid : jsTrim id ≠ "")
    (hd : jsTrim description ≠ "") (hdt : jsTrim datetime ≠ "") :
    (addTask freshStore id description datetime now saveOk).2 = Except.ok true ∧
    getTask (addTask freshStore id description datetime now saveOk).1 (jsTrim id) = none ∧
    getTask (addTask freshStore id description datetime now saveOk).1 id
      = some { id := jsTrim id, description := jsTrim description,
               datetime := datetime, createdAt := now } := by
  have h2 : ¬(jsTrim id = "" ∨ jsTrim description = "" ∨ jsTrim datetime = "") := by
    push_neg
    exact ⟨hid, hd, hdt⟩
  have h1 : mapHas freshStore.tasks id = false := rfl
  have hmain : (addTask freshStore id description datetime now saveOk).1.tasks
      = [(id, { id := jsTrim id, description := jsTrim description,
                datetime := datetime, createdAt := now })] := by
    simp only [addTask, h1, Bool.false_eq_true, if_false, if_neg h2,
      tasks_saveToLocalStorage]
    rfl
  refine ⟨?_, ?_, ?_⟩
  · simp only [addTask, h1, Bool.false_eq_true, if_false, if_neg h2]
  · rw [getTask, hmain]
    exact mapGet_single_ne id (jsTrim id) _ (Ne.symm hne)
  · rw [getTask, hmain]
    exact mapGet_single_self id _

/-- Witness for C10 at the raw id `" a"`. -/
theorem c10_key_is_untrimmed_id_witness :
    (addTask freshStore " a" "d" "2025-01-01T00:00" "n" true).2 = Except.ok true ∧
    getTask (addTask freshStore " a" "d" "2025-01-01T00:00" "n" true).1 (jsTrim " a") = none ∧
    getTask (addTask freshStore " a" "d" "2025-01-01T00:00" "n" true).1 " a"
      = some { id := jsTrim " a", description := jsTrim "d",
               datetime := "2025-01-01T00:00", createdAt := "n" } :=
  c10_key_is_untrimmed_id " a" "d" "2025-01-01T00:00" "n" true
    (by decide) (by decide) (by decide) (by decide)

end TaskManager
